import Mathlib

/-!
Verification development for the web_research pipeline.

This file gives a shallow embedding, in Lean 4, of the research pipeline:
the content analyzer (two-phase relevance engine), the search tool
(retrieval broker), the web scraper (content extractor), the response
generator (synthesizer), the error handler, and the orchestrating research
agent. Each definition mirrors the Python function named in its doc
comment. External capabilities (generative model calls, HTTP fetches, the
JSON decoder, the system clock, the datetime parser) are modelled as
explicit oracle parameters: a value of an oracle type stands for the
outcome of one external interaction. Python exceptions are modelled with
the Except monad over a PyExn value carrying the exception class name and
message, mirroring type(e).__name__ and str(e).
-/

namespace WebResearch

/-- Structure standing for a raised Python exception: the class name
(type(e).__name__) and the message (str(e)). -/
structure PyExn where
  name : String := "Exception"
  msg : String := ""
deriving Repr, DecidableEq, Inhabited

/-! ## String helpers mirroring Python string primitives -/

/-- Test whether the character list p occurs at the start of s
(mirrors the prefix test underlying Python substring search). -/
def charsStart : List Char → List Char → Bool
  | _, [] => true
  | [], _ :: _ => false
  | c :: s, p :: ps => c == p && charsStart s ps

/-- Test whether pattern p occurs as a contiguous run anywhere in s. -/
def hasSubChars : List Char → List Char → Bool
  | [], p => p.isEmpty
  | c :: s, p => charsStart (c :: s) p || hasSubChars s p

/-- Python's substring containment test: strIn needle hay mirrors
the expression needle in hay on Python strings. -/
def strIn (needle hay : String) : Bool :=
  hasSubChars hay.data needle.data

/-- Helper for countSubChars: scan the text one character at a time; a
positive skip counter walks past the remainder of an already-counted
match so occurrences are non-overlapping. -/
def countSubAux (p : List Char) : Nat → List Char → Nat
  | _, [] => 0
  | skip + 1, _ :: rest => countSubAux p skip rest
  | 0, c :: rest =>
    if charsStart (c :: rest) p then 1 + countSubAux p (p.length - 1) rest
    else countSubAux p 0 rest

/-- Count of non-overlapping occurrences of p in s, scanning from the
left: mirrors Python str.count for a non-empty pattern. -/
def countSubChars (s p : List Char) : Nat := countSubAux p 0 s

/-- Helper for pySplit: accumulate the current token (reversed) while
walking the characters, emitting a token at each whitespace boundary. -/
def splitWsAux : List Char → List Char → List (List Char)
  | cur, [] => if cur.isEmpty then [] else [cur.reverse]
  | cur, c :: rest =>
    if c.isWhitespace then
      if cur.isEmpty then splitWsAux [] rest
      else cur.reverse :: splitWsAux [] rest
    else splitWsAux (c :: cur) rest

/-- Python str.split() with no separator: the maximal runs of
non-whitespace characters, in order; no empty pieces. -/
def pySplit (s : String) : List String :=
  (splitWsAux [] s.data).map String.mk

/-- Python str.lower(), character by character (ASCII case mapping). -/
def pyLower (s : String) : String := String.mk (s.data.map Char.toLower)

/-- Python str.startswith on strings, by character lists. -/
def pyStartsWith (s p : String) : Bool := charsStart s.data p.data

end WebResearch

namespace WebResearch

/-! ## Data model of the content analyzer -/

/-- Extracted document record: the keys of the content dictionaries built
by the research agent (url, title, content) plus the optional
published_date, relevance_score and relevance_reason keys that the
content analyzer reads or writes. A missing key is modelled by the
field's default. -/
structure Doc where
  url : String := ""
  title : String := ""
  content : String := ""
  publishedDate : Option String := none
  relevanceScore : Option Int := none
  relevanceReason : String := ""
deriving Repr, DecidableEq, Inhabited

/-- Query analysis dictionary as consumed by the pipeline: query_type,
topics, search_terms and the optional result_limit. -/
structure QueryAnalysis where
  queryType : String := "factual"
  topics : List String := []
  searchTerms : List String := []
  resultLimit : Option Nat := none
deriving Repr, DecidableEq, Inhabited

namespace ContentAnalyzer

/-- Stop-word set of ContentAnalyzer._basic_text_filter. -/
def commonWords : List String :=
  ["the", "a", "an", "and", "or", "but", "in", "on", "at", "to",
   "for", "with", "by", "about", "of"]

/-- Key-term extraction of ContentAnalyzer._basic_text_filter: lowercase
and whitespace-split every search term and topic, then drop stop words
and tokens of length at most 2. The Python code keeps duplicates (the
deduplicated set built alongside is never used for scoring), and so does
this list. -/
def keyTermsOf (qa : QueryAnalysis) : List String :=
  let allKeyTerms :=
    (qa.searchTerms.map (fun t => pySplit (pyLower t))).flatten
      ++ (qa.topics.map (fun t => pySplit (pyLower t))).flatten
  allKeyTerms.filter (fun t => !commonWords.contains t && decide (t.length > 2))

/-- Title component of the Phase A score: +10 per key term occurring in
the lowercased title (before the cap at 50 applied by the caller). -/
def titleScore (keyTerms : List String) (title : String) : Int :=
  keyTerms.foldl (fun acc t => if strIn t title then acc + 10 else acc) 0

/-- URL component of the Phase A score: +3 per key term occurring in the
lowercased url (before the cap at 15 applied by the caller). -/
def urlScore (keyTerms : List String) (url : String) : Int :=
  keyTerms.foldl (fun acc t => if strIn t url then acc + 3 else acc) 0

/-- Content-frequency component of the Phase A score: per key term with at
least one occurrence, min 5 occurrences times 2, summed over terms. -/
def contentTermScore (keyTerms : List String) (content : String) : Int :=
  keyTerms.foldl
    (fun acc t =>
      let c := countSubChars content.data t.data
      if c > 0 then acc + ((min 5 c : Nat) : Int) * 2 else acc) 0

/-- Exact-phrase component of the Phase A score: for each multi-word
search term, +15 if the lowercased phrase occurs in the content and +25
if it occurs in the title. -/
def phraseScore (searchTerms : List String) (content title : String) : Int :=
  searchTerms.foldl
    (fun acc t =>
      if (pySplit t).length > 1 then
        let acc := if strIn (pyLower t) content then acc + 15 else acc
        if strIn (pyLower t) title then acc + 25 else acc
      else acc) 0

/-- Freshness component of the Phase A score. The daysOld oracle stands
for the external datetime library: for a date string it yields the age in
days relative to the fixed clock reading of the run, or none when
datetime.fromisoformat raises. An absent or empty published_date (falsy
in Python) contributes 0, as does a parse failure. -/
def freshnessScore (daysOld : String → Option Int) (pd : Option String) : Int :=
  match pd with
  | none => 0
  | some s =>
    if s = "" then 0
    else
      match daysOld s with
      | none => 0
      | some d => if d < 30 then 10 else if d < 90 then 5 else if d < 365 then 2 else 0

/-- Length component of the Phase A score, from the word count of the
lowercased content. -/
def lengthScore (content : String) : Int :=
  let n := (pySplit content).length
  if n > 1000 then 5 else if n > 500 then 3 else if n > 200 then 1 else 0

/-- Raw Phase A relevance score of one document, as accumulated by the
body of ContentAnalyzer._basic_text_filter: capped title and url
components, uncapped content-frequency, phrase, freshness and length
components, all computed on the lowercased content, title and url. -/
def rawScore (keyTerms searchTerms : List String) (daysOld : String → Option Int)
    (item : Doc) : Int :=
  let content := pyLower item.content
  let title := pyLower item.title
  let url := pyLower item.url
  min 50 (titleScore keyTerms title)
    + min 15 (urlScore keyTerms url)
    + contentTermScore keyTerms content
    + phraseScore searchTerms content title
    + freshnessScore daysOld item.publishedDate
    + lengthScore content

/-- Sort key used by _basic_text_filter: x.get("relevance_score", 0). -/
def scoreKey (d : Doc) : Int := d.relevanceScore.getD 0

/-- Comparison used by the sort: descending by scoreKey. Python
list.sort(key=..., reverse=True) is a stable descending sort; any stable
sort under this relation (ties keep input order) yields the same list,
and it is modelled below with stable insertion sort. -/
def docGE (a b : Doc) : Prop := scoreKey b ≤ scoreKey a

instance : DecidableRel docGE := fun a b => Int.decLe (scoreKey b) (scoreKey a)

instance : IsTotal Doc docGE := ⟨fun a b => Int.le_total (scoreKey b) (scoreKey a)⟩

instance : IsTrans Doc docGE := ⟨fun _ _ _ hab hbc => le_trans hbc hab⟩

/-- Per-document step of the _basic_text_filter loop: keep the document
when its raw score strictly exceeds the threshold 5, writing
relevance_score := min 98 score into it; drop it otherwise. -/
def survivorOf (kt searchTerms : List String) (daysOld : String → Option Int)
    (item : Doc) : Option Doc :=
  let score := rawScore kt searchTerms daysOld item
  if score > 5 then some { item with relevanceScore := some (min 98 score) } else none

/-- ContentAnalyzer._basic_text_filter: score every document, keep those
scoring strictly above the threshold 5 with relevance_score set to
min 98 score, sort stably by descending score, truncate to 20. -/
def basicTextFilter (qa : QueryAnalysis) (daysOld : String → Option Int)
    (items : List Doc) : List Doc :=
  ((items.filterMap (survivorOf (keyTermsOf qa) qa.searchTerms daysOld)).insertionSort
    docGE).take 20

/-- One entry of the parsed Phase B ranking payload: the id, the
relevance_score read with rank.get("relevance_score", 0), and the reason
read with rank.get("reason", ""). Entries are modelled with integer or
absent ids, the shapes the surrounding code distinguishes; an id may be
negative, out of range, or repeated. -/
structure RankEntry where
  id : Option Int := none
  relevanceScore : Int := 0
  reason : String := ""
deriving Repr, DecidableEq, Inhabited

/-- ContentAnalyzer._get_llm_ranking, with the generative call and the
best-effort JSON decode abstracted into the reply oracle: some rankings
stands for a successfully parsed list (from a bare list or the rankings
field of an object), none for a call exception or a parse failure. On
none the function degrades to the default ranking with score 10 - i over
the first min 10 n items, where n is the number of items submitted. -/
def getLlmRanking (reply : Option (List RankEntry)) (n : Nat) : List RankEntry :=
  match reply with
  | some rankings => rankings
  | none =>
    (List.range (min 10 n)).map
      (fun (i : Nat) => { id := some (i : Int), relevanceScore := 10 - (i : Int), reason := "" })

/-- Ids named by the parsed rankings, in order, skipping absent ids:
mirrors the ranked_ids list of _llm_relevance_ranking. -/
def rankedIdsOf (rankings : List RankEntry) : List Int :=
  rankings.filterMap (fun r => r.id)

/-- Effect of one accepted ranking entry on its document: store the
returned relevance_score and reason. -/
def applyRank (d : Doc) (r : RankEntry) : Doc :=
  { d with relevanceScore := some r.relevanceScore, relevanceReason := r.reason }

/-- First loop of _llm_relevance_ranking: walk the parsed rankings in
order and, for every entry whose id is present and within bounds, emit
the addressed document with score and reason applied. -/
def rankedItemsOf (rankings : List RankEntry) (itemsFA : List Doc) : List Doc :=
  rankings.filterMap (fun r =>
    match r.id with
    | some i =>
      if 0 ≤ i ∧ i < (itemsFA.length : Int) then
        some (applyRank (itemsFA.getD i.toNat default) r)
      else none
    | none => none)

/-- Second loop of _llm_relevance_ranking: the submitted documents whose
index does not occur among the returned ids, in their original order. -/
def leftoverItems (rankings : List RankEntry) (itemsFA : List Doc) : List Doc :=
  (itemsFA.enum.filter (fun p => !(rankedIdsOf rankings).contains ((p.1 : Int)))).map Prod.snd

/-- ContentAnalyzer._llm_relevance_ranking: submit the top 10 filtered
items, then reorder them by the returned ids and append the unranked
ones at the end in their original order. -/
def llmRelevanceRanking (reply : Option (List RankEntry)) (filtered : List Doc) : List Doc :=
  rankedItemsOf (getLlmRanking reply (filtered.take 10).length) (filtered.take 10)
    ++ leftoverItems (getLlmRanking reply (filtered.take 10).length) (filtered.take 10)

/-- Bound check performed on a returned id before it may address a
submitted document: 0 <= id < number of submitted items. -/
def inRangeB (n : Nat) (i : Int) : Bool := decide (0 ≤ i ∧ i < (n : Int))

/-- Ranking described by the specification for the degraded path: the
submitted documents in Phase A order, the document at index i carrying
relevance_score 10 - i and an empty rationale. Stated from the
specification's words for comparison with the code's behaviour. -/
def specDefaultRanking (fa : List Doc) : List Doc :=
  fa.enum.map (fun p => applyRank p.2 ⟨some (p.1 : Int), 10 - (p.1 : Int), ""⟩)

/-- Well-behaved reply: either the call or parse failed, or the parsed
rankings name each id at most once and carry scores within 0 to 98. -/
def ReplyOk : Option (List RankEntry) → Prop
  | none => True
  | some rankings =>
    (rankedIdsOf rankings).Nodup ∧ ∀ r ∈ rankings, 0 ≤ r.relevanceScore ∧ r.relevanceScore ≤ 98

/-- ContentAnalyzer.analyze: run the basic text filter; if nothing
survives, fall back to the first 3 input items unscored; if more than 3
survive, hand over to the model-assisted re-rank; otherwise return the
survivors as they are. -/
def analyze (qa : QueryAnalysis) (daysOld : String → Option Int)
    (reply : Option (List RankEntry)) (items : List Doc) : List Doc :=
  if (basicTextFilter qa daysOld items).isEmpty then items.take 3
  else if (basicTextFilter qa daysOld items).length > 3 then
    llmRelevanceRanking reply (basicTextFilter qa daysOld items)
  else basicTextFilter qa daysOld items

end ContentAnalyzer

/-! ## Search tool (retrieval broker) -/

/-- One search backend result: the url, title and snippet keys read by
the callers (metadata is only carried along and is not modelled). -/
structure SearchResult where
  url : String := ""
  title : String := ""
  snippet : String := ""
deriving Repr, DecidableEq, Inhabited

namespace SearchTool

/-- Inner loop of SearchTool.search over one term's results: break once
the limit is reached, skip results whose url is already present, append
the rest in order. -/
def addTermResults (limit : Nat) : List SearchResult → List SearchResult → List SearchResult
  | acc, [] => acc
  | acc, r :: rest =>
    if limit ≤ acc.length then acc
    else if acc.any (fun x => x.url == r.url) then addTermResults limit acc rest
    else addTermResults limit (acc ++ [r]) rest

/-- Outer loop of SearchTool.search: walk the terms in order, stopping
once the limit is reached; a backend exception on one term is caught and
the loop continues with the next term. The backend oracle stands for the
configured provider call (_search_serpapi, _search_google_cse or
_mock_search). -/
def searchGo (backend : String → Except PyExn (List SearchResult)) (limit : Nat) :
    List String → List SearchResult → List SearchResult
  | [], acc => acc
  | term :: rest, acc =>
    if limit ≤ acc.length then acc
    else
      match backend term with
      | .error _ => searchGo backend limit rest acc
      | .ok rs => searchGo backend limit rest (addTermResults limit acc rs)

/-- SearchTool.search: resolve the limit (a missing or zero limit falls
back to the configured default, Python's if not limit), run the
term loop from an empty accumulator, and truncate to the limit. -/
def search (backend : String → Except PyExn (List SearchResult)) (terms : List String)
    (limit : Option Nat) (defaultLimit : Nat) : List SearchResult :=
  let lim :=
    match limit with
    | none => defaultLimit
    | some 0 => defaultLimit
    | some l => l
  (searchGo backend lim terms []).take lim

end SearchTool

/-! ## Web scraper (content extractor) -/

namespace WebScraper

/-- Oracles for the scraper's external interactions: baseOf stands for
urlparse composed into scheme://netloc; robotsRead for reading and
evaluating robots.txt (none when the read raises, in which case the code
assumes scraping is allowed); newspaperText and soupText for the two
fetch-and-extract helpers _scrape_with_newspaper and
_scrape_with_beautifulsoup, which catch their own exceptions and yield
none on failure. -/
structure ScrapeEnv where
  baseOf : String → String
  robotsRead : String → Option Bool
  newspaperText : String → Option String
  soupText : String → Option String

/-- Result of one scrape call: the returned content, the robots
permission cache after the call, and the trace of external interactions
performed (the string robots for a permission check, fetch for the
content-extraction attempts). -/
structure ScrapeOutcome where
  result : Option String := none
  cache : List (String × Bool) := []
  events : List String := []
deriving Repr, DecidableEq, Inhabited

/-- WebScraper._can_fetch: answer from the per-host cache when present;
otherwise read robots.txt, defaulting to allowed when the read fails, and
cache the verdict for the host. -/
def canFetch (env : ScrapeEnv) (cache : List (String × Bool)) (url : String) :
    Bool × List (String × Bool) :=
  let base := env.baseOf url
  match (cache.find? (fun p => p.1 == base)).map Prod.snd with
  | some b => (b, cache)
  | none =>
    match env.robotsRead url with
    | some allowed => (allowed, cache ++ [(base, allowed)])
    | none => (true, cache ++ [(base, true)])

/-- Normalization of runs of newlines by WebScraper._clean_content:
collapse 3 or more consecutive newlines to exactly two. -/
def collapseNlChars : List Char → List Char
  | [] => []
  | c :: rest =>
    if c = '\n' then
      let n := (rest.takeWhile (fun x => x == '\n')).length + 1
      (if n ≥ 3 then ['\n', '\n'] else List.replicate n '\n')
        ++ collapseNlChars (rest.dropWhile (fun x => x == '\n'))
    else c :: collapseNlChars rest
termination_by s => s.length
decreasing_by
  · simp only [List.length_cons]
    have := (List.dropWhile_sublist (l := rest) (fun x => x == '\n')).length_le
    omega
  · simp only [List.length_cons]
    omega

/-- WebScraper._clean_content: collapse newline runs, drop lines whose
stripped text has length at most 2 unless blank, and drop repeated
paragraphs keeping first occurrences. -/
def cleanContent (content : String) : String :=
  if content = "" then ""
  else
    let content := String.mk (collapseNlChars content.data)
    let lines := (content.splitOn "\n").filter
      (fun line => decide (line.trim.length > 2) || line.trim == "")
    let content := String.intercalate "\n" lines
    let paragraphs := content.splitOn "\n\n"
    let uniq := paragraphs.foldl (fun acc p => if acc.contains p then acc else acc ++ [p]) []
    String.intercalate "\n\n" uniq

/-- Sentinel returned by WebScraper.scrape when robots.txt disallows the
url: a valid source string, not a failure. -/
def robotsSentinel : String :=
  "[Access to this content is restricted by the website\x27s robots.txt policy]"

/-- Content-extraction part of WebScraper.scrape after the permission
check: try the newspaper helper, fall back to the soup helper when the
first yields nothing or a stripped length below 100, then clean any
truthy content obtained. -/
def scrapeBody (env : ScrapeEnv) (cache : List (String × Bool)) (url : String)
    (events : List String) : ScrapeOutcome :=
  let first := env.newspaperText url
  let content :=
    match first with
    | none => env.soupText url
    | some s => if s = "" || s.trim.length < 100 then env.soupText url else some s
  let result :=
    match content with
    | none => none
    | some s => if s = "" then some s else some (cleanContent s)
  { result := result, cache := cache, events := events ++ ["fetch"] }

/-- WebScraper.scrape: reject empty urls and urls not starting with
http:// or https:// before any external interaction; otherwise consult
robots.txt when enabled, returning the sentinel when disallowed, and run
the extraction cascade. -/
def scrape (env : ScrapeEnv) (respectRobots : Bool) (cache : List (String × Bool))
    (url : String) : ScrapeOutcome :=
  if url = "" || !(pyStartsWith url "http://" || pyStartsWith url "https://") then
    { result := none, cache := cache, events := [] }
  else if respectRobots then
    let fc := canFetch env cache url
    if !fc.1 then { result := some robotsSentinel, cache := fc.2, events := ["robots"] }
    else scrapeBody env fc.2 url ["robots"]
  else scrapeBody env cache url []

end WebScraper

/-! ## Response generator (synthesizer) -/

/-- Parsed synthesis payload: the summary, detailed_response, highlights
and source_evaluation keys that ResponseGenerator.generate reads with
defaults; an absent key is none. -/
structure SynthData where
  summary : Option String := none
  detailedResponse : Option String := none
  highlights : Option (List String) := none
  sourceEvaluation : Option String := none
deriving Repr, DecidableEq, Inhabited

/-- Response dictionary produced by ResponseGenerator.generate. -/
structure GenResponse where
  summary : String := ""
  detailedResponse : String := ""
  highlights : List String := []
  sourceEvaluation : Option String := none
deriving Repr, DecidableEq, Inhabited

namespace ResponseGenerator

/-- Summary of the parse-failure fallback of
ResponseGenerator._get_llm_synthesis. -/
def parseFailSummary (query : String) : String :=
  "Based on my research about \x27" ++ query ++
    "\x27, I found relevant information but encountered an error formatting it. The information appears to support answering your question, but I need to present it differently."

/-- Summary of the call-failure fallback of
ResponseGenerator._get_llm_synthesis. -/
def callFailSummary (query : String) : String :=
  "I encountered an error while researching \x27" ++ query ++
    "\x27. Please try rephrasing your question or try again later."

/-- ResponseGenerator._get_llm_synthesis with the generative call
abstracted as callResult (the raw model text, or the exception raised)
and the best-effort JSON decode abstracted as the parse oracle (none on
parse failure). On parse failure the fallback keeps the raw text as
detailed_response; on call failure it reports the exception message. The
function is total: no path raises. -/
def getLlmSynthesis (callResult : Except PyExn String) (parse : String → Option SynthData)
    (query : String) : SynthData :=
  match callResult with
  | .ok raw =>
    match parse raw with
    | some d => d
    | none =>
      { summary := some (parseFailSummary query),
        detailedResponse := some raw,
        highlights := some [] }
  | .error e =>
    { summary := some (callFailSummary query),
      detailedResponse := some ("Error processing your request: " ++ e.msg),
      highlights := some [] }

/-- ResponseGenerator.generate: obtain the synthesis payload and read its
keys with the defaults of the Python .get calls. -/
def generate (callResult : Except PyExn String) (parse : String → Option SynthData)
    (query : String) : GenResponse :=
  let d := getLlmSynthesis callResult parse query
  { summary := d.summary.getD "",
    detailedResponse := d.detailedResponse.getD "",
    highlights := d.highlights.getD [],
    sourceEvaluation := d.sourceEvaluation }

end ResponseGenerator

/-! ## Error handler and research agent (orchestrator) -/

/-- One conversation history entry: a role-tagged content string. -/
structure Turn where
  role : String
  content : String
deriving Repr, DecidableEq, Inhabited

/-- Research result dictionary. Keys present only on some paths (analysis,
error_type, message) are optional; sources is the list of url and title
pairs. -/
structure ResearchResult where
  query : String := ""
  analysis : Option QueryAnalysis := none
  sources : List (String × String) := []
  summary : String := ""
  detailedResponse : String := ""
  highlights : List String := []
  success : Bool := false
  errorType : Option String := none
  message : Option String := none
deriving Repr, DecidableEq, Inhabited

/-- Error-type to message table of error_handler.handle_error. -/
def errorTypeMessages : List (String × String) :=
  [("ConnectionError",
    "I couldn\x27t connect to some websites. This might be due to network issues or website restrictions."),
   ("Timeout", "Some websites took too long to respond. Please try again later."),
   ("JSONDecodeError", "I had trouble processing some of the data I retrieved."),
   ("ValueError", "I encountered an unexpected value while processing your request."),
   ("KeyError", "Some expected data was missing while processing your request."),
   ("AttributeError",
    "I encountered an issue with one of the components while processing your request."),
   ("LLMProviderError",
    "There was an issue with the AI service that powers my research capabilities.")]

/-- error_handler.handle_error: choose a user-facing message from the
exception class name, falling back to keyword probes of the lowercased
message and then a generic sentence; append the query when one was given
and is non-empty (Python truthiness); return a success=false dictionary
with the error type, the message also mirrored as summary, and empty
sources. -/
def handleError (e : PyExn) (query : Option String) : ResearchResult :=
  let base :=
    match (errorTypeMessages.find? (fun p => p.1 == e.name)).map Prod.snd with
    | some m => m
    | none =>
      let low := pyLower e.msg
      if strIn "api_key" low || strIn "apikey" low then
        "There was an authentication issue with one of the services I use. Please check API key configurations."
      else if strIn "permission" low || strIn "access" low then
        "I don\x27t have permission to access some content needed for your request."
      else
        "I encountered an unexpected error while processing your request. Please try again or rephrase your query."
  let message :=
    match query with
    | some q => if q = "" then base else base ++ " Your query was: \x27" ++ q ++ "\x27"
    | none => base
  { query := query.getD "", success := false, errorType := some e.name,
    message := some message, summary := message, sources := [] }

namespace ResearchAgent

/-- Oracles for the components the orchestrator sequences. Each stands
for one Python call that may raise: query analysis, web search, one url
scrape, content analysis, and response generation. -/
structure AgentEnv where
  analyzeQuery : String → List Turn → Except PyExn QueryAnalysis
  searchFn : List String → String → Nat → Except PyExn (List SearchResult)
  scrapeFn : String → Except PyExn (Option String)
  analyzeContent : QueryAnalysis → List Doc → Except PyExn (List Doc)
  generateFn : String → QueryAnalysis → List Doc → List Turn → Except PyExn GenResponse

/-- Message of ResearchAgent._handle_no_results. -/
def noResultsMessage (query : String) : String :=
  "I couldn\x27t find any information about \x27" ++ query ++
    "\x27. Could you try rephrasing your question or providing more details?"

/-- Message of ResearchAgent._handle_no_content: a fixed sentence. -/
def noContentMessage : String :=
  "I found some relevant sources, but couldn\x27t extract their content. This might be due to access restrictions or complex page structures."

/-- ResearchAgent._handle_no_results: append the failure message as the
assistant turn and produce the no_results result with empty sources. -/
def handleNoResults (query : String) (qa : QueryAnalysis) (hist : List Turn) :
    ResearchResult × List Turn :=
  ({ query := query, analysis := some qa, sources := [],
     summary := noResultsMessage query, success := false, errorType := some "no_results" },
   hist ++ [⟨"assistant", noResultsMessage query⟩])

/-- ResearchAgent._handle_no_content: append the failure message as the
assistant turn and produce the extraction_failed result whose sources are
the url and title pairs of the search results. -/
def handleNoContent (query : String) (qa : QueryAnalysis) (rs : List SearchResult)
    (hist : List Turn) : ResearchResult × List Turn :=
  ({ query := query, analysis := some qa,
     sources := rs.map (fun r => (r.url, r.title)),
     summary := noContentMessage, success := false, errorType := some "extraction_failed" },
   hist ++ [⟨"assistant", noContentMessage⟩])

/-- Scraping loop of ResearchAgent.research: per search result, a raised
scrape exception is caught and the result skipped; falsy content (none or
the empty string) is skipped; otherwise a content dictionary with the
result's url and title is accumulated in order. -/
def scrapeResults (env : AgentEnv) (rs : List SearchResult) : List Doc :=
  rs.foldl
    (fun acc r =>
      match env.scrapeFn r.url with
      | .error _ => acc
      | .ok none => acc
      | .ok (some c) =>
        if c = "" then acc else acc ++ [{ url := r.url, title := r.title, content := c }]) []

/-- Body of the try block of ResearchAgent.research, after the user turn
has been appended: classify, search, short-circuit on zero candidates,
scrape, short-circuit when nothing was extracted, filter, synthesize,
append the assistant turn and build the success result. -/
def researchTry (env : AgentEnv) (query : String) (hist1 : List Turn) :
    Except PyExn (ResearchResult × List Turn) :=
  match env.analyzeQuery query hist1 with
  | .error e => .error e
  | .ok qa =>
    match env.searchFn qa.searchTerms qa.queryType (qa.resultLimit.getD 5) with
    | .error e => .error e
    | .ok searchResults =>
      if searchResults.isEmpty then .ok (handleNoResults query qa hist1)
      else
        if (scrapeResults env searchResults).isEmpty then
          .ok (handleNoContent query qa searchResults hist1)
        else
          match env.analyzeContent qa (scrapeResults env searchResults) with
          | .error e => .error e
          | .ok filteredContent =>
            match env.generateFn query qa filteredContent hist1 with
            | .error e => .error e
            | .ok response =>
              .ok ({ query := query, analysis := some qa,
                     sources := filteredContent.map (fun d => (d.url, d.title)),
                     summary := response.summary,
                     detailedResponse := response.detailedResponse,
                     highlights := response.highlights,
                     success := true }, hist1 ++ [⟨"assistant", response.summary⟩])

/-- ResearchAgent.research: append the user turn, run the pipeline body,
and on an uncaught exception map it through handle_error and append the
error message as the assistant turn. -/
def research (env : AgentEnv) (query : String) (hist : List Turn) :
    ResearchResult × List Turn :=
  match researchTry env query (hist ++ [⟨"user", query⟩]) with
  | .ok r => r
  | .error e =>
    (handleError e (some query),
     hist ++ [⟨"user", query⟩] ++ [⟨"assistant", (handleError e (some query)).message.getD ""⟩])

/-- ResearchAgent.reset_conversation: replace the history with the empty
list whatever its prior contents. -/
def resetConversation (hist : List Turn) : List Turn :=
  let _ := hist
  []

/-- Iterated research calls against one session, threading the history. -/
def runCalls : List (AgentEnv × String) → List Turn → List Turn
  | [], h => h
  | (e, q) :: rest, h => runCalls rest (research e q h).2

end ResearchAgent

/-- Proposition that a message references a query: the query occurs
verbatim as a contiguous substring of the message. -/
def Mentions (msg q : String) : Prop := ∃ a b, msg = a ++ q ++ b

/-- Identity of a document up to the score and rationale fields written
by the relevance engine: its url, title and content. -/
def coreOf (d : Doc) : String × String × String := (d.url, d.title, d.content)

/-- Concrete scraper oracle used to instantiate universally quantified
statements about the scraper. -/
def scrapeEnvTrivial : WebScraper.ScrapeEnv :=
  { baseOf := fun _ => "", robotsRead := fun _ => none,
    newspaperText := fun _ => none, soupText := fun _ => none }

/-- Concrete orchestrator oracle on which search succeeds with one
candidate and extraction yields none. -/
def c1Env : ResearchAgent.AgentEnv :=
  { analyzeQuery := fun _ _ => .ok { searchTerms := ["x"] },
    searchFn := fun _ _ _ => .ok [{ url := "https://a", title := "A" }],
    scrapeFn := fun _ => .ok none,
    analyzeContent := fun _ ds => .ok ds,
    generateFn := fun _ _ _ _ => .ok {} }

/-- Concrete orchestrator oracle on which search returns zero
candidates. -/
def c1EnvEmpty : ResearchAgent.AgentEnv :=
  { analyzeQuery := fun _ _ => .ok { searchTerms := ["x"] },
    searchFn := fun _ _ _ => .ok [],
    scrapeFn := fun _ => .ok none,
    analyzeContent := fun _ ds => .ok ds,
    generateFn := fun _ _ _ _ => .ok {} }

/-- Concrete orchestrator oracle, distinct from c1Env, on which the
single candidate extracts to none. -/
def c4Env : ResearchAgent.AgentEnv :=
  { analyzeQuery := fun _ _ => .ok { searchTerms := ["x"] },
    searchFn := fun _ _ _ => .ok [{ url := "https://a", title := "A" }],
    scrapeFn := fun _ => .ok none,
    analyzeContent := fun _ ds => .ok ds,
    generateFn := fun _ _ _ _ => .ok {} }

/-- Concrete query longer than the fixed no-content message, so it cannot
occur inside it. -/
def c4Query : String := String.mk (List.replicate 150 'q')

/-- Concrete date oracle on which no published date parses. -/
def noDate : String → Option Int := fun _ => none

/-- Concrete query analysis with the single search term alpha. -/
def c2Qa : QueryAnalysis := { searchTerms := ["alpha"] }

/-- Four extracted documents whose titles all match the search term, so
all four survive Phase A (score 10 each) and Phase B is triggered. -/
def c2Docs : List Doc :=
  [{ url := "u1", title := "alpha" }, { url := "u2", title := "alpha" },
   { url := "u3", title := "alpha" }, { url := "u4", title := "alpha" }]

/-- Concrete parsed Phase B reply repeating document id 0 twenty-one
times with score 100. -/
def c2Reply : List ContentAnalyzer.RankEntry := List.replicate 21 ⟨some 0, 100, ""⟩

/-- Concrete parsed Phase B reply repeating document id 0 eight times. -/
def c9Reply : List ContentAnalyzer.RankEntry := List.replicate 8 ⟨some 0, 50, ""⟩

end WebResearch

namespace WebResearch

open ResearchAgent

/-! ## Theorems -/

/-- C10: for every input url that is empty or does not start with
http:// or https://, WebScraper.scrape returns none immediately: the
per-host permission cache is left untouched, no robots check and no fetch
is performed (empty event trace), and in particular the robots-disallowed
sentinel is not returned. -/
theorem c10_invalid_url_short_circuit (env : WebScraper.ScrapeEnv) (respectRobots : Bool)
    (cache : List (String × Bool)) (url : String)
    (h : url = "" ∨ (pyStartsWith url "http://" = false ∧ pyStartsWith url "https://" = false)) :
    WebScraper.scrape env respectRobots cache url =
      { result := none, cache := cache, events := [] } := by
  unfold WebScraper.scrape
  rcases h with h | ⟨h1, h2⟩
  · simp [h]
  · simp [h1, h2]

/-- Witness for c10_invalid_url_short_circuit at the concrete url
ftp://example.com with a nonempty cache. -/
theorem c10_invalid_url_short_circuit_witness :
    WebScraper.scrape scrapeEnvTrivial true [("https://h", true)] "ftp://example.com" =
      { result := none, cache := [("https://h", true)], events := [] } :=
  c10_invalid_url_short_circuit scrapeEnvTrivial true [("https://h", true)] "ftp://example.com"
    (Or.inr ⟨by decide, by decide⟩)

/-- Helper: the try-block body appends exactly one assistant turn to the
history it is given, whichever non-raising path produced the result. -/
theorem researchTry_hist (env : AgentEnv) (query : String) (hist1 : List Turn)
    (r : ResearchResult) (h2 : List Turn)
    (h : researchTry env query hist1 = .ok (r, h2)) :
    ∃ m, h2 = hist1 ++ [⟨"assistant", m⟩] := by
  unfold researchTry at h
  split at h
  · simp at h
  · split at h
    · simp at h
    · split at h
      · exact ⟨noResultsMessage query, (congrArg Prod.snd (Except.ok.inj h)).symm⟩
      · split at h
        · exact ⟨noContentMessage, (congrArg Prod.snd (Except.ok.inj h)).symm⟩
        · split at h
          · simp at h
          · split at h
            · simp at h
            · exact ⟨_, (congrArg Prod.snd (Except.ok.inj h)).symm⟩

/-- Helper: every research call extends the prior history by exactly the
user turn and one assistant turn. -/
theorem research_hist (env : AgentEnv) (query : String) (hist : List Turn) :
    ∃ m, (research env query hist).2 = hist ++ [⟨"user", query⟩, ⟨"assistant", m⟩] := by
  unfold research
  cases ht : researchTry env query (hist ++ [⟨"user", query⟩]) with
  | ok r =>
    obtain ⟨m, hm⟩ := researchTry_hist env query _ r.1 r.2 (by rw [ht])
    refine ⟨m, ?_⟩
    show r.2 = _
    rw [hm]
    simp
  | error e =>
    refine ⟨(handleError e (some query)).message.getD "", ?_⟩
    simp

/-- C3: in every research call exactly one user turn and exactly one
assistant turn are appended, whichever path (success, short-circuit or
caught exception) produced the result: the post-call history is the prior
history plus one user and one assistant turn; consequently the history
length grows by exactly 2 per call, so after N calls from a fresh session
it is 2N, and reset_conversation leaves an empty history irrespective of
prior size. -/
theorem c3_history_discipline :
    (∀ (env : AgentEnv) (query : String) (hist : List Turn),
      ∃ m, (research env query hist).2 =
        hist ++ [⟨"user", query⟩, ⟨"assistant", m⟩]) ∧
    (∀ (calls : List (AgentEnv × String)) (hist : List Turn),
      (runCalls calls hist).length = hist.length + 2 * calls.length) ∧
    (∀ hist : List Turn, (resetConversation hist).length = 0) := by
  refine ⟨research_hist, ?_, fun _ => rfl⟩
  intro calls
  induction calls with
  | nil => intro hist; simp [runCalls]
  | cons c rest ih =>
    intro hist
    obtain ⟨m, hm⟩ := research_hist c.1 c.2 hist
    simp only [runCalls, ih, hm]
    simp
    omega

/-- C5 counterexample: when the generative call itself fails, the
synthesizer's fallback detailed_response is the string
Error processing your request: followed by the exception message, not the
empty string the specification promises when no model text was
obtained. -/
theorem c5_counterexample :
    (ResponseGenerator.generate (Except.error { name := "Timeout", msg := "boom" })
        (fun _ => none) "solar panels").detailedResponse =
      "Error processing your request: boom" ∧
    "Error processing your request: boom" ≠ "" := by
  exact ⟨rfl, by decide⟩

/-- C5 amended: on parse failure the synthesizer returns, without
raising, the fallback whose summary is the templated apology referencing
the query, whose detailed_response is the raw model text, and whose
highlights are empty; on call failure it returns the fallback whose
summary is the other templated apology referencing the query, whose
detailed_response is an error description (the exception message prefixed
with Error processing your request: , rather than the empty string), and
whose highlights are empty. Both apologies contain the query verbatim. -/
theorem c5_synthesis_fallback (parse : String → Option SynthData) (query raw : String)
    (e : PyExn) (hparse : parse raw = none) :
    ResponseGenerator.generate (Except.ok raw) parse query =
      { summary := ResponseGenerator.parseFailSummary query, detailedResponse := raw,
        highlights := [], sourceEvaluation := none } ∧
    ResponseGenerator.generate (Except.error e) parse query =
      { summary := ResponseGenerator.callFailSummary query,
        detailedResponse := "Error processing your request: " ++ e.msg,
        highlights := [], sourceEvaluation := none } ∧
    Mentions (ResponseGenerator.parseFailSummary query) query ∧
    Mentions (ResponseGenerator.callFailSummary query) query := by
  refine ⟨?_, rfl, ⟨_, _, rfl⟩, ⟨_, _, rfl⟩⟩
  simp [ResponseGenerator.generate, ResponseGenerator.getLlmSynthesis, hparse]

/-- Witness for c5_synthesis_fallback at a concrete failing parse. -/
theorem c5_synthesis_fallback_witness :
    ResponseGenerator.generate (Except.ok "raw text") (fun _ => none) "q" =
      { summary := ResponseGenerator.parseFailSummary "q", detailedResponse := "raw text",
        highlights := [], sourceEvaluation := none } :=
  (c5_synthesis_fallback (fun _ => none) "q" "raw text" default rfl).1

/-- Helper: when every scrape yields none, the scraping loop accumulates
nothing. -/
theorem scrapeResults_all_none (env : AgentEnv) (rs : List SearchResult)
    (h : ∀ r ∈ rs, env.scrapeFn r.url = .ok none) :
    scrapeResults env rs = [] := by
  unfold scrapeResults
  suffices hgen : ∀ acc : List Doc,
      rs.foldl (fun acc r =>
        match env.scrapeFn r.url with
        | .error _ => acc
        | .ok none => acc
        | .ok (some c) =>
          if c = "" then acc else acc ++ [{ url := r.url, title := r.title, content := c }]) acc
        = acc from hgen []
  induction rs with
  | nil => intro acc; rfl
  | cons r rest ih =>
    intro acc
    have hr := h r (by simp)
    simp only [List.foldl_cons, hr]
    exact ih (fun x hx => h x (by simp [hx])) acc

/-- C1 amended: when the broker returns zero candidates the research call
returns success false, error tag no_results and empty sources; when every
extraction returns none it returns success false, sources populated with
the url and title pairs of the search results, and the error tag
extraction_failed (the code's stable tag for this short-circuit; the
specified tag no_content is not what the code emits). -/
theorem c1_short_circuit_results (env : AgentEnv) (query : String) (hist : List Turn)
    (qa : QueryAnalysis) (rs : List SearchResult)
    (hqa : env.analyzeQuery query (hist ++ [⟨"user", query⟩]) = .ok qa)
    (hsearch : env.searchFn qa.searchTerms qa.queryType (qa.resultLimit.getD 5) = .ok rs) :
    (rs = [] →
      (research env query hist).1.success = false ∧
      (research env query hist).1.errorType = some "no_results" ∧
      (research env query hist).1.sources = []) ∧
    (rs ≠ [] → (∀ r ∈ rs, env.scrapeFn r.url = .ok none) →
      (research env query hist).1.success = false ∧
      (research env query hist).1.errorType = some "extraction_failed" ∧
      (research env query hist).1.sources = rs.map (fun r => (r.url, r.title))) := by
  constructor
  · rintro rfl
    have htry : researchTry env query (hist ++ [⟨"user", query⟩]) =
        .ok (handleNoResults query qa (hist ++ [⟨"user", query⟩])) := by
      unfold researchTry
      simp [hqa, hsearch]
    unfold research
    rw [htry]
    exact ⟨rfl, rfl, rfl⟩
  · intro hne hscrape
    have hsc := scrapeResults_all_none env rs hscrape
    have hne' : rs.isEmpty = false := by
      cases rs with
      | nil => exact absurd rfl hne
      | cons a l => rfl
    have htry : researchTry env query (hist ++ [⟨"user", query⟩]) =
        .ok (handleNoContent query qa rs (hist ++ [⟨"user", query⟩])) := by
      unfold researchTry
      simp [hqa, hsearch, hne', hsc]
    unfold research
    rw [htry]
    exact ⟨rfl, rfl, rfl⟩

/-- C1 counterexample: in a run in which the single candidate extracts to
none, the result carries the error tag extraction_failed, not the
no_content tag the claim states (sources and success behave as
claimed). -/
theorem c1_counterexample :
    (research c1Env "q" []).1.errorType = some "extraction_failed" ∧
    "extraction_failed" ≠ "no_content" ∧
    (research c1Env "q" []).1.success = false ∧
    (research c1Env "q" []).1.sources = [("https://a", "A")] := by
  refine ⟨rfl, by decide, rfl, rfl⟩

/-- Witness for c1_short_circuit_results at concrete runs discharging
both short-circuit branches. -/
theorem c1_short_circuit_results_witness :
    ((research c1EnvEmpty "q" []).1.success = false ∧
     (research c1EnvEmpty "q" []).1.errorType = some "no_results" ∧
     (research c1EnvEmpty "q" []).1.sources = []) ∧
    ((research c1Env "q" []).1.success = false ∧
     (research c1Env "q" []).1.errorType = some "extraction_failed" ∧
     (research c1Env "q" []).1.sources = [("https://a", "A")]) :=
  ⟨(c1_short_circuit_results c1EnvEmpty "q" [] { searchTerms := ["x"] } [] rfl rfl).1 rfl,
   (c1_short_circuit_results c1Env "q" [] { searchTerms := ["x"] }
      [{ url := "https://a", title := "A" }] rfl rfl).2 (by decide)
      (fun r _ => rfl)⟩

/-- Helper: the error handler's message contains the non-empty query
verbatim. -/
theorem handleError_mentions (e : PyExn) (q : String) (hq : q ≠ "") :
    Mentions (handleError e (some q)).summary q := by
  unfold handleError
  dsimp only
  rw [if_neg hq]
  exact ⟨_, _, rfl⟩

/-- C4 amended: a failing research call's message contains the original
query verbatim in the zero-candidate case, and in the uncaught-exception
case whenever the query is non-empty; the zero-extractable-content case
is excluded, its message being a fixed sentence that does not reference
the query (see the counterexample). -/
theorem c4_failure_message_mentions_query (env : AgentEnv) (query : String)
    (hist : List Turn) (qa : QueryAnalysis) (e : PyExn) (hq : query ≠ "") :
    (env.analyzeQuery query (hist ++ [⟨"user", query⟩]) = .ok qa →
     env.searchFn qa.searchTerms qa.queryType (qa.resultLimit.getD 5) = .ok [] →
     Mentions (research env query hist).1.summary query) ∧
    (researchTry env query (hist ++ [⟨"user", query⟩]) = .error e →
     Mentions (research env query hist).1.summary query) := by
  constructor
  · intro hqa hsearch
    have htry : researchTry env query (hist ++ [⟨"user", query⟩]) =
        .ok (handleNoResults query qa (hist ++ [⟨"user", query⟩])) := by
      unfold researchTry
      simp [hqa, hsearch]
    unfold research
    rw [htry]
    exact ⟨_, _, rfl⟩
  · intro herr
    unfold research
    rw [herr]
    exact handleError_mentions e query hq

/-- Witness for c4_failure_message_mentions_query at concrete runs for
both covered failure kinds. -/
theorem c4_failure_message_mentions_query_witness :
    Mentions (research c1EnvEmpty "q" []).1.summary "q" ∧
    Mentions (research { c1EnvEmpty with
      analyzeQuery := fun _ _ => .error { name := "ValueError", msg := "bad" } } "q" []).1.summary
      "q" :=
  ⟨(c4_failure_message_mentions_query c1EnvEmpty "q" [] { searchTerms := ["x"] }
      default (by decide)).1 rfl rfl,
   (c4_failure_message_mentions_query _ "q" [] default
      { name := "ValueError", msg := "bad" } (by decide)).2 rfl⟩

set_option maxRecDepth 8192 in
/-- C4 counterexample: a failing research call whose message does not
reference the query: with every extraction yielding none, the result is a
success=false result whose message is the fixed no-content sentence,
which cannot contain the 150-character query. -/
theorem c4_counterexample :
    (research c4Env c4Query []).1.success = false ∧
    ¬ Mentions (research c4Env c4Query []).1.summary c4Query := by
  refine ⟨rfl, ?_⟩
  rintro ⟨a, b, hab⟩
  have hsum : (research c4Env c4Query []).1.summary = noContentMessage := rfl
  rw [hsum] at hab
  have hlen := congrArg String.length hab
  rw [String.length_append, String.length_append] at hlen
  have h1 : noContentMessage.length < 150 := by decide
  have h2 : c4Query.length = 150 := by
    simp [c4Query, String.length]
  rw [h2] at hlen
  omega

/-- Helper: adding one term's results preserves absence of duplicate
urls. -/
theorem addTermResults_nodup (limit : Nat) (trs : List SearchResult) :
    ∀ acc : List SearchResult, (acc.map (fun r => r.url)).Nodup →
      ((SearchTool.addTermResults limit acc trs).map (fun r => r.url)).Nodup := by
  induction trs with
  | nil => intro acc h; exact h
  | cons r rest ih =>
    intro acc h
    unfold SearchTool.addTermResults
    by_cases hfull : limit ≤ acc.length
    · rw [if_pos hfull]; exact h
    · rw [if_neg hfull]
      by_cases hdup : acc.any (fun x => x.url == r.url)
      · rw [if_pos hdup]; exact ih acc h
      · rw [if_neg hdup]
        apply ih
        rw [List.map_append, List.map_cons, List.map_nil, List.nodup_append]
        refine ⟨h, List.nodup_singleton _, ?_⟩
        intro u hu hu'
        rw [List.mem_singleton] at hu'
        subst hu'
        obtain ⟨x, hx, hxu⟩ := List.mem_map.mp hu
        exact hdup (List.any_eq_true.mpr ⟨x, hx, by simp [hxu]⟩)

/-- Helper: the term loop preserves absence of duplicate urls. -/
theorem searchGo_nodup (backend : String → Except PyExn (List SearchResult)) (limit : Nat)
    (terms : List String) :
    ∀ acc : List SearchResult, (acc.map (fun r => r.url)).Nodup →
      ((SearchTool.searchGo backend limit terms acc).map (fun r => r.url)).Nodup := by
  induction terms with
  | nil => intro acc h; exact h
  | cons t rest ih =>
    intro acc h
    unfold SearchTool.searchGo
    by_cases hfull : limit ≤ acc.length
    · rw [if_pos hfull]; exact h
    · rw [if_neg hfull]
      cases backend t with
      | error e => exact ih acc h
      | ok rs => exact ih _ (addTermResults_nodup limit rs acc h)

/-- Helper: once the accumulator has reached the limit, the term loop
adds nothing. -/
theorem searchGo_full (backend : String → Except PyExn (List SearchResult)) (limit : Nat)
    (terms : List String) (acc : List SearchResult) (h : limit ≤ acc.length) :
    SearchTool.searchGo backend limit terms acc = acc := by
  cases terms with
  | nil => rfl
  | cons t rest => unfold SearchTool.searchGo; rw [if_pos h]

/-- Helper: a term whose backend call raises contributes nothing: the
loop behaves as if the term were absent. -/
theorem searchGo_error_skip (backend : String → Except PyExn (List SearchResult)) (limit : Nat)
    (t : String) (e : PyExn) (he : backend t = .error e) (pre post : List String) :
    ∀ acc, SearchTool.searchGo backend limit (pre ++ t :: post) acc =
      SearchTool.searchGo backend limit (pre ++ post) acc := by
  induction pre with
  | nil =>
    intro acc
    simp only [List.nil_append]
    by_cases hfull : limit ≤ acc.length
    · rw [searchGo_full backend limit (t :: post) acc hfull,
        searchGo_full backend limit post acc hfull]
    · conv_lhs => rw [SearchTool.searchGo]
      rw [if_neg hfull, he]
  | cons p pre' ih =>
    intro acc
    simp only [List.cons_append]
    unfold SearchTool.searchGo
    by_cases hfull : limit ≤ acc.length
    · rw [if_pos hfull, if_pos hfull]
    · rw [if_neg hfull, if_neg hfull]
      cases backend p with
      | error e' => exact ih acc
      | ok rs => exact ih _

/-- C7: for every ordered term list and positive limit, the broker's
output has no duplicate urls and at most limit entries, and a backend
failure on one term never aborts retrieval: the result equals the result
of searching the remaining terms. -/
theorem c7_broker_properties (backend : String → Except PyExn (List SearchResult))
    (terms : List String) (limit defaultLimit : Nat) (hpos : 0 < limit) :
    ((SearchTool.search backend terms (some limit) defaultLimit).map
        (fun r => r.url)).Nodup ∧
    (SearchTool.search backend terms (some limit) defaultLimit).length ≤ limit ∧
    (∀ (pre post : List String) (t : String) (e : PyExn), backend t = .error e →
      SearchTool.search backend (pre ++ t :: post) (some limit) defaultLimit =
        SearchTool.search backend (pre ++ post) (some limit) defaultLimit) := by
  obtain ⟨k, rfl⟩ : ∃ k, limit = k + 1 := ⟨limit - 1, by omega⟩
  refine ⟨?_, ?_, ?_⟩
  · show (((SearchTool.searchGo backend (k + 1) terms []).take (k + 1)).map
      (fun r => r.url)).Nodup
    rw [List.map_take]
    exact (List.take_sublist _ _).nodup (searchGo_nodup backend (k + 1) terms [] (by simp))
  · exact List.length_take_le _ _
  · intro pre post t e he
    show (SearchTool.searchGo backend (k + 1) (pre ++ t :: post) []).take (k + 1) = _
    rw [searchGo_error_skip backend (k + 1) t e he pre post]
    rfl

/-- Witness for c7_broker_properties at a concrete backend, term list and
limit. -/
theorem c7_broker_properties_witness :
    ((SearchTool.search (fun t => if t = "bad" then .error default
        else .ok [{ url := "https://a" ++ t, title := t }])
      ["x", "bad", "y"] (some 2) 5).map (fun r => r.url)).Nodup ∧
    (SearchTool.search (fun t => if t = "bad" then .error default
        else .ok [{ url := "https://a" ++ t, title := t }])
      ["x", "bad", "y"] (some 2) 5).length ≤ 2 ∧
    SearchTool.search (fun t => if t = "bad" then .error default
        else .ok [{ url := "https://a" ++ t, title := t }])
      (["x"] ++ "bad" :: ["y"]) (some 2) 5 =
      SearchTool.search (fun t => if t = "bad" then .error default
        else .ok [{ url := "https://a" ++ t, title := t }])
      (["x"] ++ ["y"]) (some 2) 5 := by
  have h := c7_broker_properties (fun t => if t = "bad" then .error default
    else .ok [{ url := "https://a" ++ t, title := t }]) ["x", "bad", "y"] 2 5 (by decide)
  exact ⟨h.1, h.2.1, h.2.2 ["x"] ["y"] "bad" default (by simp)⟩

/-- Helper: a filterMap whose function fixes every member of the list is
the identity on it. -/
theorem filterMap_fixpoint {α : Type} (f : α → Option α) :
    ∀ l : List α, (∀ e ∈ l, f e = some e) → l.filterMap f = l := by
  intro l
  induction l with
  | nil => intro _; rfl
  | cons a rest ih =>
    intro h
    rw [List.filterMap_cons, h a (by simp)]
    rw [ih (fun e he => h e (by simp [he]))]

/-- Helper: the Phase A raw score reads only the url, title, content and
published date of a document, never the score fields. -/
theorem rawScore_set_score (kt st : List String) (daysOld : String → Option Int)
    (item : Doc) (s : Option Int) :
    ContentAnalyzer.rawScore kt st daysOld { item with relevanceScore := s } =
      ContentAnalyzer.rawScore kt st daysOld item := rfl

/-- Helper: the survivor map of Phase A ignores and overwrites the score
field, so it fixes its own outputs. -/
theorem survivorOf_fix (kt st : List String) (daysOld : String → Option Int)
    (d e : Doc) (h : ContentAnalyzer.survivorOf kt st daysOld d = some e) :
    ContentAnalyzer.survivorOf kt st daysOld e = some e := by
  simp only [ContentAnalyzer.survivorOf] at h ⊢
  split at h
  · cases h
    rw [if_pos (by assumption)]
    rfl
  · exact absurd h (by simp)

/-- C8: Phase A is idempotent and insensitive to score fields carried by
its input: rerunning the basic text filter on its own output returns that
output unchanged (same documents, same scores, same order), and
pre-existing relevance_score values on the input, such as those written
into the shared dictionaries by an earlier run, do not affect the
result. -/
theorem c8_phase_a_idempotent (qa : QueryAnalysis) (daysOld : String → Option Int)
    (items : List Doc) (sf : Doc → Option Int) :
    ContentAnalyzer.basicTextFilter qa daysOld
        (ContentAnalyzer.basicTextFilter qa daysOld items) =
      ContentAnalyzer.basicTextFilter qa daysOld items ∧
    ContentAnalyzer.basicTextFilter qa daysOld
        (items.map (fun d => { d with relevanceScore := sf d })) =
      ContentAnalyzer.basicTextFilter qa daysOld items := by
  constructor
  · have hfix : ∀ e ∈ ContentAnalyzer.basicTextFilter qa daysOld items,
        ContentAnalyzer.survivorOf (ContentAnalyzer.keyTermsOf qa) qa.searchTerms daysOld e
          = some e := by
      intro e he
      have he' : e ∈ (items.filterMap (ContentAnalyzer.survivorOf
          (ContentAnalyzer.keyTermsOf qa) qa.searchTerms daysOld)).insertionSort
          ContentAnalyzer.docGE :=
        (List.take_sublist 20 _).mem he
      rw [List.mem_insertionSort] at he'
      obtain ⟨d, _, hd⟩ := List.mem_filterMap.mp he'
      exact survivorOf_fix _ _ daysOld d e hd
    have hsorted : (ContentAnalyzer.basicTextFilter qa daysOld items).Sorted
        ContentAnalyzer.docGE :=
      List.Pairwise.sublist (List.take_sublist 20 _)
        (List.sorted_insertionSort ContentAnalyzer.docGE _)
    have hlen : (ContentAnalyzer.basicTextFilter qa daysOld items).length ≤ 20 := by
      simp only [ContentAnalyzer.basicTextFilter]
      exact List.length_take_le 20 _
    show ((ContentAnalyzer.basicTextFilter qa daysOld items).filterMap _
        |>.insertionSort _).take 20 = _
    rw [filterMap_fixpoint _ _ hfix, hsorted.insertionSort_eq,
      List.take_of_length_le hlen]
  · show ((items.map _).filterMap _ |>.insertionSort _).take 20 = _
    rw [List.filterMap_map]
    rfl

/-- Helper: getD at an in-bounds index is the element there. -/
theorem getD_of_lt {α : Type} [Inhabited α] (l : List α) (n : Nat) (h : n < l.length) :
    l.getD n default = l[n] := by
  rw [List.getD_eq_getElem?_getD, List.getElem?_eq_getElem h]
  rfl

/-- Helper: the number of documents emitted by the reorder loop is the
number of returned ids that pass the bound check. -/
theorem rankedItemsOf_length (rankings : List ContentAnalyzer.RankEntry) (fa : List Doc) :
    (ContentAnalyzer.rankedItemsOf rankings fa).length =
      ((ContentAnalyzer.rankedIdsOf rankings).filter
        (ContentAnalyzer.inRangeB fa.length)).length := by
  induction rankings with
  | nil => rfl
  | cons r rest ih =>
    simp only [ContentAnalyzer.rankedItemsOf, ContentAnalyzer.rankedIdsOf,
      List.filterMap_cons] at ih ⊢
    cases hid : r.id with
    | none => simpa using ih
    | some i =>
      by_cases hin : 0 ≤ i ∧ i < (fa.length : Int)
      · simp only [if_pos hin, List.filter_cons]
        rw [if_pos (by simp [ContentAnalyzer.inRangeB, hin])]
        simpa using ih
      · simp only [if_neg hin, List.filter_cons]
        rw [if_neg (by simp [ContentAnalyzer.inRangeB, hin])]
        exact ih

/-- Helper: length of an index-predicate filter over an enumeration
equals the length of the same filter over the index range. -/
theorem enumFrom_filter_fst_length (q : Nat → Bool) (l : List Doc) :
    ∀ k, ((List.enumFrom k l).filter (fun p => q p.1)).length =
      ((List.range' k l.length).filter q).length := by
  induction l with
  | nil => intro _; rfl
  | cons d rest ih =>
    intro k
    rw [List.enumFrom_cons, List.length_cons, List.range'_succ]
    simp only [List.filter_cons]
    cases hq : q k
    · simpa using ih (k + 1)
    · simpa using ih (k + 1)

/-- Helper: the number of leftover documents is the number of indices not
named by the returned ids. -/
theorem leftoverItems_length (rankings : List ContentAnalyzer.RankEntry) (fa : List Doc) :
    (ContentAnalyzer.leftoverItems rankings fa).length =
      ((List.range fa.length).filter
        (fun i => !(ContentAnalyzer.rankedIdsOf rankings).contains ((i : Nat) : Int))).length := by
  unfold ContentAnalyzer.leftoverItems
  rw [List.length_map, List.range_eq_range']
  exact enumFrom_filter_fst_length
    (fun i => !(ContentAnalyzer.rankedIdsOf rankings).contains ((i : Nat) : Int)) fa 0

/-- Helper: a boolean predicate and its negation split a list's length. -/
theorem filter_bool_complement_length (q q' : Nat → Bool) (hq : ∀ a, q' a = !q a)
    (l : List Nat) :
    (l.filter q).length + (l.filter q').length = l.length := by
  induction l with
  | nil => rfl
  | cons a rest ih =>
    simp only [List.filter_cons, hq]
    cases hqa : q a <;> simp [hqa] <;> omega

/-- Helper: when the parsed reply names each id at most once, Phase B
returns at most as many documents as were submitted. -/
theorem phaseB_length_le (rankings : List ContentAnalyzer.RankEntry) (fa : List Doc)
    (h : (ContentAnalyzer.rankedIdsOf rankings).Nodup) :
    (ContentAnalyzer.rankedItemsOf rankings fa
      ++ ContentAnalyzer.leftoverItems rankings fa).length ≤ fa.length := by
  rw [List.length_append, rankedItemsOf_length, leftoverItems_length]
  have hA : ((ContentAnalyzer.rankedIdsOf rankings).filter
      (ContentAnalyzer.inRangeB fa.length)).Nodup :=
    (List.filter_sublist _).nodup h
  have hmapped : (((ContentAnalyzer.rankedIdsOf rankings).filter
      (ContentAnalyzer.inRangeB fa.length)).map Int.toNat).Nodup := by
    refine List.Nodup.map_on ?_ hA
    intro x hx y hy hxy
    have hx' := (List.mem_filter.mp hx).2
    have hy' := (List.mem_filter.mp hy).2
    simp only [ContentAnalyzer.inRangeB, decide_eq_true_eq] at hx' hy'
    omega
  have hsub : (((ContentAnalyzer.rankedIdsOf rankings).filter
      (ContentAnalyzer.inRangeB fa.length)).map Int.toNat) ⊆
      (List.range fa.length).filter
        (fun i => (ContentAnalyzer.rankedIdsOf rankings).contains ((i : Nat) : Int)) := by
    intro v hv
    obtain ⟨x, hx, rfl⟩ := List.mem_map.mp hv
    have hxmem := (List.mem_filter.mp hx).1
    have hxr := (List.mem_filter.mp hx).2
    simp only [ContentAnalyzer.inRangeB, decide_eq_true_eq] at hxr
    rw [List.mem_filter, List.mem_range]
    refine ⟨by omega, ?_⟩
    have hcast : ((x.toNat : Nat) : Int) = x := Int.toNat_of_nonneg hxr.1
    rw [hcast]
    simp [List.contains, List.elem_eq_mem, hxmem]
  have hle := (List.subperm_of_subset hmapped hsub).length_le
  rw [List.length_map] at hle
  have hcomp := filter_bool_complement_length
    (fun i => (ContentAnalyzer.rankedIdsOf rankings).contains ((i : Nat) : Int))
    (fun i => !(ContentAnalyzer.rankedIdsOf rankings).contains ((i : Nat) : Int))
    (fun _ => rfl) (List.range fa.length)
  rw [List.length_range] at hcomp
  omega

/-- Helper: every document emitted by the reorder loop is, up to the
score and rationale fields, one of the submitted documents. -/
theorem rankedItemsOf_core (rankings : List ContentAnalyzer.RankEntry) (fa : List Doc)
    (d' : Doc) (h : d' ∈ ContentAnalyzer.rankedItemsOf rankings fa) :
    ∃ d ∈ fa, coreOf d' = coreOf d := by
  obtain ⟨r, _, hr⟩ := List.mem_filterMap.mp h
  cases hid : r.id with
  | none => rw [hid] at hr; exact absurd hr (by simp)
  | some i =>
    simp only [hid] at hr
    by_cases hin : 0 ≤ i ∧ i < (fa.length : Int)
    · rw [if_pos hin] at hr
      injection hr with hr'
      subst hr'
      have hlt : i.toNat < fa.length := by omega
      refine ⟨fa[i.toNat], List.getElem_mem hlt, ?_⟩
      rw [getD_of_lt fa i.toNat hlt]
      rfl
    · rw [if_neg hin] at hr
      exact absurd hr (by simp)

/-- Helper: the leftover documents form a sublist of the submitted
documents. -/
theorem leftoverItems_sublist (rankings : List ContentAnalyzer.RankEntry) (fa : List Doc) :
    List.Sublist (ContentAnalyzer.leftoverItems rankings fa) fa := by
  unfold ContentAnalyzer.leftoverItems
  have h1 : (fa.enum.filter
      (fun p => !(ContentAnalyzer.rankedIdsOf rankings).contains ((p.1 : Nat) : Int))).Sublist
      fa.enum :=
    List.filter_sublist fa.enum
  have h2 := h1.map Prod.snd
  rw [show fa.enum.map Prod.snd = fa from List.enumFrom_map_snd 0 fa] at h2
  exact h2

/-- Helper: every document kept by Phase A carries a score between 6 and
98. -/
theorem basicTextFilter_scores (qa : QueryAnalysis) (daysOld : String → Option Int)
    (items : List Doc) (d : Doc)
    (h : d ∈ ContentAnalyzer.basicTextFilter qa daysOld items) :
    ∃ s, d.relevanceScore = some s ∧ 6 ≤ s ∧ s ≤ 98 := by
  have h' := (List.take_sublist 20 _).mem h
  rw [List.mem_insertionSort] at h'
  obtain ⟨d₀, _, hd₀⟩ := List.mem_filterMap.mp h'
  simp only [ContentAnalyzer.survivorOf] at hd₀
  split at hd₀
  · injection hd₀ with hd₀'
    subst hd₀'
    refine ⟨_, rfl, le_min (by norm_num) (by omega), min_le_left _ _⟩
  · exact absurd hd₀ (by simp)

/-- Helper: every score written by the reorder loop comes from one of the
parsed ranking entries. -/
theorem rankedItemsOf_scores (rankings : List ContentAnalyzer.RankEntry) (fa : List Doc)
    (d' : Doc) (h : d' ∈ ContentAnalyzer.rankedItemsOf rankings fa) :
    ∃ r ∈ rankings, d'.relevanceScore = some r.relevanceScore := by
  obtain ⟨r, hrmem, hr⟩ := List.mem_filterMap.mp h
  cases hid : r.id with
  | none => rw [hid] at hr; exact absurd hr (by simp)
  | some i =>
    simp only [hid] at hr
    by_cases hin : 0 ≤ i ∧ i < (fa.length : Int)
    · rw [if_pos hin] at hr
      injection hr with hr'
      subst hr'
      exact ⟨r, hrmem, rfl⟩
    · rw [if_neg hin] at hr
      exact absurd hr (by simp)

/-- Helper: a filterMap that always succeeds is a map. -/
theorem filterMap_eq_map_of_some {α β : Type} (f : α → Option β) (g : α → β) (l : List α)
    (h : ∀ a ∈ l, f a = some (g a)) : l.filterMap f = l.map g := by
  induction l with
  | nil => rfl
  | cons a rest ih =>
    rw [List.filterMap_cons, h a (by simp), List.map_cons,
      ih (fun x hx => h x (by simp [hx]))]

/-- Helper: the ids of the default ranking are 0 up to m - 1 in order. -/
theorem rankedIdsOf_default (m : Nat) :
    ContentAnalyzer.rankedIdsOf ((List.range m).map
      (fun (i : Nat) =>
        (⟨some (i : Int), 10 - (i : Int), ""⟩ : ContentAnalyzer.RankEntry))) =
      (List.range m).map (fun (i : Nat) => (i : Int)) := by
  unfold ContentAnalyzer.rankedIdsOf
  rw [List.filterMap_map]
  exact filterMap_eq_map_of_some _ _ _ (fun a _ => rfl)

/-- Helper: on a failed call or parse, Phase B returns exactly the
specified default ranking: the submitted documents in order, the one at
index i scored 10 - i. -/
theorem llmRelevanceRanking_default (fl : List Doc) :
    ContentAnalyzer.llmRelevanceRanking none fl =
      ContentAnalyzer.specDefaultRanking (fl.take 10) := by
  have hn : (fl.take 10).length ≤ 10 := List.length_take_le 10 fl
  have hmin : min 10 (fl.take 10).length = (fl.take 10).length := Nat.min_eq_right hn
  show ContentAnalyzer.rankedItemsOf _ _ ++ ContentAnalyzer.leftoverItems _ _ = _
  simp only [ContentAnalyzer.getLlmRanking, hmin]
  have hranked : ContentAnalyzer.rankedItemsOf ((List.range (fl.take 10).length).map
      (fun (i : Nat) =>
        (⟨some (i : Int), 10 - (i : Int), ""⟩ : ContentAnalyzer.RankEntry)))
      (fl.take 10) =
      (List.range (fl.take 10).length).map (fun (i : Nat) => ContentAnalyzer.applyRank
        ((fl.take 10).getD i default) ⟨some (i : Int), 10 - (i : Int), ""⟩) := by
    unfold ContentAnalyzer.rankedItemsOf
    rw [List.filterMap_map]
    apply filterMap_eq_map_of_some
    intro a ha
    have halt := List.mem_range.mp ha
    show (if 0 ≤ ((a : Nat) : Int) ∧ ((a : Nat) : Int) < ((fl.take 10).length : Int) then _
      else none) = _
    rw [if_pos ⟨Int.natCast_nonneg a, by exact_mod_cast halt⟩]
    rw [Int.toNat_natCast]
  have hleft : ContentAnalyzer.leftoverItems ((List.range (fl.take 10).length).map
      (fun (i : Nat) =>
        (⟨some (i : Int), 10 - (i : Int), ""⟩ : ContentAnalyzer.RankEntry)))
      (fl.take 10) = [] := by
    rw [← List.length_eq_zero, leftoverItems_length, rankedIdsOf_default]
    rw [List.length_eq_zero, List.filter_eq_nil_iff]
    intro a ha
    have hmem : ((a : Nat) : Int) ∈ (List.range (fl.take 10).length).map
        (fun (i : Nat) => (i : Int)) := List.mem_map.mpr ⟨a, ha, rfl⟩
    have halt := List.mem_range.mp ha
    rw [List.length_take] at halt
    simp [List.contains, List.elem_eq_mem]
    omega
  rw [hranked, hleft, List.append_nil]
  unfold ContentAnalyzer.specDefaultRanking
  apply List.ext_getElem
  · simp
  · intro j h1 h2
    simp only [List.getElem_map, List.getElem_range]
    have hj : j < (fl.take 10).length := by simpa using h1
    simp only [List.enum]
    rw [List.getElem_enumFrom]
    simp only [Nat.zero_add]
    rw [getD_of_lt _ _ hj]

/-- Helper: with more than 3 Phase A survivors, analyze delegates to the
model-assisted re-rank over the survivors. -/
theorem analyze_phaseB (qa : QueryAnalysis) (daysOld : String → Option Int)
    (reply : Option (List ContentAnalyzer.RankEntry)) (items : List Doc)
    (h3 : 3 < (ContentAnalyzer.basicTextFilter qa daysOld items).length) :
    ContentAnalyzer.analyze qa daysOld reply items =
      ContentAnalyzer.llmRelevanceRanking reply
        (ContentAnalyzer.basicTextFilter qa daysOld items) := by
  unfold ContentAnalyzer.analyze
  have hne : (ContentAnalyzer.basicTextFilter qa daysOld items).isEmpty = false := by
    cases hbf : ContentAnalyzer.basicTextFilter qa daysOld items with
    | nil => rw [hbf] at h3; simp at h3
    | cons a l => rfl
  simp only [hne, Bool.false_eq_true, if_false, if_pos h3]

/-- C6: for every parsed Phase B reply, no document among the submitted
top 10 is dropped: each appears (up to the score and rationale fields the
loop rewrites) somewhere in the output; the documents whose index is
absent from the returned ids form the tail of the output in their
original Phase A order; and on a failed call or parse Phase B returns the
default ranking assigning score 10 - index over the first 10 documents in
Phase A order. The function is total, so ranking never raises. -/
theorem c6_phase_b_reply_tolerance (filtered : List Doc)
    (rankings : List ContentAnalyzer.RankEntry) :
    (∀ i (hi : i < (filtered.take 10).length),
      ∃ d' ∈ ContentAnalyzer.llmRelevanceRanking (some rankings) filtered,
        coreOf d' = coreOf ((filtered.take 10).get ⟨i, hi⟩)) ∧
    List.IsSuffix (ContentAnalyzer.leftoverItems rankings (filtered.take 10))
      (ContentAnalyzer.llmRelevanceRanking (some rankings) filtered) ∧
    (∀ fl : List Doc, ContentAnalyzer.llmRelevanceRanking none fl =
      ContentAnalyzer.specDefaultRanking (fl.take 10)) := by
  refine ⟨?_, ⟨ContentAnalyzer.rankedItemsOf rankings (filtered.take 10), rfl⟩,
    llmRelevanceRanking_default⟩
  intro i hi
  by_cases hmem : ((i : Nat) : Int) ∈ ContentAnalyzer.rankedIdsOf rankings
  · obtain ⟨r, hr, hrid⟩ := List.mem_filterMap.mp hmem
    refine ⟨ContentAnalyzer.applyRank ((filtered.take 10).getD ((i : Int)).toNat default) r,
      ?_, ?_⟩
    · show _ ∈ ContentAnalyzer.rankedItemsOf rankings (filtered.take 10) ++
        ContentAnalyzer.leftoverItems rankings (filtered.take 10)
      apply List.mem_append.mpr
      left
      apply List.mem_filterMap.mpr
      refine ⟨r, hr, ?_⟩
      simp only [hrid]
      rw [if_pos ⟨Int.natCast_nonneg i, by exact_mod_cast hi⟩]
    · rw [Int.toNat_natCast, getD_of_lt _ _ hi]
      rfl
  · refine ⟨(filtered.take 10).get ⟨i, hi⟩, ?_, rfl⟩
    show _ ∈ ContentAnalyzer.rankedItemsOf rankings (filtered.take 10) ++
      ContentAnalyzer.leftoverItems rankings (filtered.take 10)
    apply List.mem_append.mpr
    right
    apply List.mem_map.mpr
    refine ⟨(i, (filtered.take 10).get ⟨i, hi⟩), ?_, rfl⟩
    apply List.mem_filter.mpr
    constructor
    · have h1 : i < (filtered.take 10).enum.length := by
        simpa [List.enum, List.enumFrom_length] using hi
      have h2 : (filtered.take 10).enum[i] = (i, (filtered.take 10).get ⟨i, hi⟩) := by
        simp only [List.enum]
        rw [List.getElem_enumFrom]
        simp [List.get_eq_getElem]
      rw [← h2]
      exact List.getElem_mem h1
    · simp [List.contains, List.elem_eq_mem, hmem]

/-- Witness for c6_phase_b_reply_tolerance at a concrete reply and
document list: document 0 is not dropped although the reply ranks only
document 1. -/
theorem c6_phase_b_reply_tolerance_witness :
    ∃ d' ∈ ContentAnalyzer.llmRelevanceRanking
      (some [⟨some 1, 40, ""⟩]) c2Docs,
      coreOf d' = coreOf ((c2Docs.take 10).get ⟨0, by decide⟩) :=
  (c6_phase_b_reply_tolerance c2Docs [⟨some 1, 40, ""⟩]).1 0 (by decide)

/-- C9 amended: whenever Phase B runs (more than 3 Phase A survivors) the
final output draws only on the first 10 survivors, so documents ranked
11th through 20th by Phase A never appear; and provided the parsed reply
names each id at most once, the output has at most 10 documents. Without
that proviso the bound fails: see the counterexample. -/
theorem c9_phase_b_cap (qa : QueryAnalysis) (daysOld : String → Option Int)
    (reply : Option (List ContentAnalyzer.RankEntry)) (items : List Doc)
    (htrig : 3 < (ContentAnalyzer.basicTextFilter qa daysOld items).length) :
    (∀ d' ∈ ContentAnalyzer.analyze qa daysOld reply items,
      ∃ d ∈ (ContentAnalyzer.basicTextFilter qa daysOld items).take 10,
        coreOf d' = coreOf d) ∧
    ((ContentAnalyzer.rankedIdsOf (ContentAnalyzer.getLlmRanking reply
        ((ContentAnalyzer.basicTextFilter qa daysOld items).take 10).length)).Nodup →
      (ContentAnalyzer.analyze qa daysOld reply items).length ≤ 10) := by
  rw [analyze_phaseB qa daysOld reply items htrig]
  constructor
  · intro d' hd'
    simp only [ContentAnalyzer.llmRelevanceRanking] at hd'
    rcases List.mem_append.mp hd' with hL | hR
    · exact rankedItemsOf_core _ _ d' hL
    · exact ⟨d', (leftoverItems_sublist _ _).mem hR, rfl⟩
  · intro hnd
    have hle := phaseB_length_le _
      ((ContentAnalyzer.basicTextFilter qa daysOld items).take 10) hnd
    have h10 := List.length_take_le 10 (ContentAnalyzer.basicTextFilter qa daysOld items)
    simp only [ContentAnalyzer.llmRelevanceRanking]
    omega

/-- Witness for c9_phase_b_cap at a concrete 4-survivor run with a
well-formed reply. -/
theorem c9_phase_b_cap_witness :
    (ContentAnalyzer.analyze c2Qa noDate (some [⟨some 1, 40, ""⟩]) c2Docs).length ≤ 10 :=
  (c9_phase_b_cap c2Qa noDate (some [⟨some 1, 40, ""⟩]) c2Docs (by decide)).2 (by decide)

/-- C9 counterexample: with 4 Phase A survivors and a parsed reply
repeating id 0 eight times, the final output has 11 documents, exceeding
the claimed bound of 10. -/
theorem c9_counterexample :
    3 < (ContentAnalyzer.basicTextFilter c2Qa noDate c2Docs).length ∧
    (ContentAnalyzer.analyze c2Qa noDate (some c9Reply) c2Docs).length = 11 ∧
    ¬ (ContentAnalyzer.analyze c2Qa noDate (some c9Reply) c2Docs).length ≤ 10 := by
  exact ⟨by decide, by decide, by decide⟩

/-- C2 amended: for every intent with a non-empty term set and every list
of score-free extracted documents, the relevance engine's output has
length at most 20 and every relevance_score carried by an output document
lies in 0 to 98, provided the Phase B reply, when one parses, names each
id at most once and carries scores within 0 to 98. Phase A alone always
guarantees the bounds (its scores lie in 6 to 98); Phase B copies the
reply's scores unclamped and duplicates documents on repeated ids, so
without the proviso both bounds fail (see the counterexample). -/
theorem c2_relevance_engine_bounds (qa : QueryAnalysis) (daysOld : String → Option Int)
    (reply : Option (List ContentAnalyzer.RankEntry)) (items : List Doc)
    (_hterms : qa.searchTerms ≠ [])
    (hclean : ∀ d ∈ items, d.relevanceScore = none)
    (hreply : ContentAnalyzer.ReplyOk reply) :
    (ContentAnalyzer.analyze qa daysOld reply items).length ≤ 20 ∧
    ∀ d ∈ ContentAnalyzer.analyze qa daysOld reply items,
      ∀ s, d.relevanceScore = some s → 0 ≤ s ∧ s ≤ 98 := by
  unfold ContentAnalyzer.analyze
  split
  · -- no survivors: first 3 unscored inputs
    constructor
    · have := List.length_take_le 3 items
      omega
    · intro d hd s hs
      have hdin : d ∈ items := (List.take_sublist 3 items).mem hd
      rw [hclean d hdin] at hs
      exact absurd hs (by simp)
  · split
    · -- Phase B over the top 10 survivors
      constructor
      · have hnd : (ContentAnalyzer.rankedIdsOf (ContentAnalyzer.getLlmRanking reply
            ((ContentAnalyzer.basicTextFilter qa daysOld items).take 10).length)).Nodup := by
          cases reply with
          | some rankings => exact hreply.1
          | none =>
            rw [show ContentAnalyzer.getLlmRanking none
                ((ContentAnalyzer.basicTextFilter qa daysOld items).take 10).length =
                (List.range (min 10 ((ContentAnalyzer.basicTextFilter qa daysOld
                  items).take 10).length)).map
                  (fun (i : Nat) =>
                    ⟨some (i : Int), 10 - (i : Int), ""⟩) from rfl, rankedIdsOf_default]
            exact (List.nodup_range _).map (fun a b hab => by exact_mod_cast hab)
        have hle := phaseB_length_le _
          ((ContentAnalyzer.basicTextFilter qa daysOld items).take 10) hnd
        have h10 := List.length_take_le 10 (ContentAnalyzer.basicTextFilter qa daysOld items)
        simp only [ContentAnalyzer.llmRelevanceRanking]
        omega
      · intro d hd s hs
        simp only [ContentAnalyzer.llmRelevanceRanking] at hd
        rcases List.mem_append.mp hd with hL | hR
        · obtain ⟨r, hrmem, hsc⟩ := rankedItemsOf_scores _ _ d hL
          rw [hsc] at hs
          injection hs with hseq
          subst hseq
          cases reply with
          | some rankings => exact hreply.2 r hrmem
          | none =>
            obtain ⟨i, hi, hri⟩ := List.mem_map.mp hrmem
            have hilt := List.mem_range.mp hi
            subst hri
            constructor <;> simp <;> omega
        · have hmem : d ∈ ContentAnalyzer.basicTextFilter qa daysOld items :=
            (List.take_sublist 10 _).mem ((leftoverItems_sublist _ _).mem hR)
          obtain ⟨s', hs', hlo, hhi⟩ := basicTextFilter_scores qa daysOld items d hmem
          rw [hs'] at hs
          injection hs with hseq
          omega
    · -- 1 to 3 survivors returned as they are
      rename_i hne h3
      constructor
      · have hlen : (ContentAnalyzer.basicTextFilter qa daysOld items).length ≤ 3 := by
          omega
        omega
      · intro d hd s hs
        obtain ⟨s', hs', hlo, hhi⟩ := basicTextFilter_scores qa daysOld items d hd
        rw [hs'] at hs
        injection hs with hseq
        omega

/-- Witness for c2_relevance_engine_bounds at a concrete 4-survivor run
with a failed Phase B reply. -/
theorem c2_relevance_engine_bounds_witness :
    (ContentAnalyzer.analyze c2Qa noDate none c2Docs).length ≤ 20 ∧
    ∀ d ∈ ContentAnalyzer.analyze c2Qa noDate none c2Docs,
      ∀ s, d.relevanceScore = some s → 0 ≤ s ∧ s ≤ 98 :=
  c2_relevance_engine_bounds c2Qa noDate none c2Docs (by decide) (by decide) trivial

/-- C2 counterexample: with 4 Phase A survivors and a parsed reply
repeating id 0 twenty-one times with score 100, the output has 24
documents and carries relevance_score 100, violating both the length
bound 20 and the score bound 98 of the claim. -/
theorem c2_counterexample :
    ¬ ((ContentAnalyzer.analyze c2Qa noDate (some c2Reply) c2Docs).length ≤ 20 ∧
       ∀ d ∈ ContentAnalyzer.analyze c2Qa noDate (some c2Reply) c2Docs,
         ∀ s, d.relevanceScore = some s → 0 ≤ s ∧ s ≤ 98) := by
  decide

end WebResearch
